import Mathlib

/-!
Verification of the archive materialization subsystem
(`src/datasets/utils/extract.py`): per-format detectors and extractors and
the locked extraction coordinator `Extractor`.

The embedding keeps file contents as lists of byte values and the
filesystem as an association of paths to nodes.  Every stateful operation
returns the Python-level outcome, the final filesystem, and the ordered
trace of observable side effects (lock events and output mutations).
External library behaviour (`tarfile`, `gzip`, `zipfile`, `lzma`,
`shutil`, `os`) is modelled at the granularity this subsystem observes;
each such model carries a doc comment naming the library call it stands
for.  `datasets.utils.filelock.FileLock` and `datasets.config` are not
among the sources at hand and are modelled from the spec where noted.
-/

set_option maxRecDepth 8000

namespace DatasetsExtract

/-- Byte strings are lists of naturals, one per byte. -/
abbrev Bytes := List Nat

/-- Filesystem node: a regular file with its bytes, a directory whose
extracted members are kept as a flat association of member names to member
bytes, or a file that exists but cannot be opened (e.g. for permission
reasons), whose open attempts raise `OSError`. -/
inductive Node where
  | file (content : Bytes)
  | dir (entries : List (String × Bytes))
  | unreadable
deriving DecidableEq

/-- Filesystem state: association of paths to nodes. -/
abbrev Fs := List (String × Node)

/-- Node currently at a path, if any. -/
def lookupFs : Fs → String → Option Node
  | [], _ => none
  | (q, n) :: rest, p => if q = p then some n else lookupFs rest p

/-- Filesystem with every binding of a path dropped. -/
def removeFs : Fs → String → Fs
  | [], _ => []
  | (q, n) :: rest, p => if q = p then removeFs rest p else (q, n) :: removeFs rest p

/-- Filesystem with the node at a path replaced. -/
def setFs (fs : Fs) (p : String) (n : Node) : Fs := (p, n) :: removeFs fs p

/-- Python exceptions distinguished by this subsystem.  In the source both
terminal coordinator failures are `EnvironmentError`s told apart by their
message: `unknownArchiveFormat` models `EnvironmentError("Archive format of
{} could not be identified")` and `missingRarfile` models
`EnvironmentError("Please pip install rarfile")`.  `fileExistsError` is the
`FileExistsError` that `os.makedirs` raises on a non-directory,
`corruptStream` a decode failure while extracting an already-detected
stream, `eofError` the `EOFError` that `GzipFile.read` raises on a
truncated stream (standing for the family of stream exceptions —
`EOFError`, `zlib.error` — that are not `OSError`s and therefore slip past
an `except OSError` handler), and `osError` any other `OSError` coming
from the filesystem.  All but `eofError` and `corruptStream` are
`OSError`s in Python. -/
inductive PyErr where
  | osError
  | fileExistsError
  | corruptStream
  | eofError
  | unknownArchiveFormat (path : String)
  | missingRarfile
deriving DecidableEq

/-- Models `builtins.open(path, "rb")` followed by reading: the bytes of the
regular file at `path`, or an `OSError` when the path is missing,
unreadable, or a directory. -/
def openRead (fs : Fs) (path : String) : Except PyErr Bytes :=
  match lookupFs fs path with
  | some (.file b) => .ok b
  | _ => .error .osError

/-- Models `shutil.rmtree(path, ignore_errors=True)`: a directory at `path`
is removed recursively; every `OSError` is ignored, so a missing path and a
regular file at `path` are both left exactly as they are. -/
def rmtree_ignore_errors (fs : Fs) (path : String) : Fs :=
  match lookupFs fs path with
  | some (.dir _) => removeFs fs path
  | _ => fs

/-- Models `os.makedirs(path, exist_ok=True)`: creates the directory; an
existing directory is accepted unchanged; an existing non-directory raises
`FileExistsError` (`exist_ok` only suppresses the error for directories). -/
def makedirs_exist_ok (fs : Fs) (path : String) : Except PyErr Fs :=
  match lookupFs fs path with
  | some (.dir _) => .ok fs
  | some _ => .error .fileExistsError
  | none => .ok (setFs fs path (.dir []))

/-- Models `os.rmdir(path)`: removes an empty directory; any other node, or
no node at all, raises an `OSError`. -/
def rmdir (fs : Fs) (path : String) : Except PyErr Fs :=
  match lookupFs fs path with
  | some (.dir []) => .ok (removeFs fs path)
  | _ => .error .osError

/-- Gzip member magic, the two bytes `\x1f\x8b`. -/
def gzipMagic : Bytes := [0x1f, 0x8b]

/-- Xz header magic `\xfd7zXZ\x00`, as in `XzExtractor.is_extractable`. -/
def xzMagic : Bytes := [0xfd, 0x37, 0x7a, 0x58, 0x5a, 0x00]

/-- RAR4 signature `Rar!\x1a\x07\x00` from `RarExtractor.is_extractable`. -/
def RAR_ID : Bytes := [0x52, 0x61, 0x72, 0x21, 0x1a, 0x07, 0x00]

/-- RAR5 signature `Rar!\x1a\x07\x01\x00` from `RarExtractor.is_extractable`. -/
def RAR5_ID : Bytes := [0x52, 0x61, 0x72, 0x21, 0x1a, 0x07, 0x01, 0x00]

/-- Magic `ustar` of a POSIX tar header block, sitting at offset 257 of the
first 512-byte header. -/
def ustarMagic : Bytes := [0x75, 0x73, 0x74, 0x61, 0x72]

/-- End-of-central-directory record of a zip file with an empty comment:
the 4-byte signature `PK\x05\x06` followed by 18 further bytes. -/
def zipEocd : Bytes := [0x50, 0x4b, 0x05, 0x06] ++ List.replicate 18 0

/-- Structural tar-layout acceptance, the non-raising part of the
`tarfile.is_tarfile` model: the file carries at least one full 512-byte
header block with the `ustar` magic at offset 257.  A `TarError` on a
malformed layout is caught inside `is_tarfile` and becomes `false`; the
raising part of the model is `tarProbe`. -/
def tarCheck (b : Bytes) : Bool := 512 ≤ b.length && (b.drop 257).take 5 == ustarMagic

/-- Models `tarfile.is_tarfile` on the bytes of a readable file.
`tarfile.open` tries transparent decompression, so on a file that starts
with the gzip magic the gzip layer's header parsing runs; when the stream
ends before the 10-byte member header is complete it raises `EOFError`,
which is not a `TarError`: `is_tarfile` (catching only `TarError`) lets it
escape.  Otherwise the structural check `tarCheck` answers; streams with a
complete gzip header are modelled as readable (deflate-level failures lie
below the byte granularity of this model and are collapsed). -/
def tarProbe (b : Bytes) : Except PyErr Bool :=
  if gzipMagic.isPrefixOf b then
    (if b.length < 10 then .error .eofError else .ok (tarCheck b))
  else .ok (tarCheck b)

/-- Models `fh.read(1)` on an open gzip stream wrapped in the detector's
`try/except OSError`: an empty underlying stream returns `b""` without an
exception, so the detector answers `True`; a wrong magic raises
`BadGzipFile`, an `OSError`, which the handler catches into `False`; a
stream that carries the magic but ends before the 10-byte member header is
complete raises `EOFError`, which is not an `OSError` and escapes the
handler.  Streams with a complete header are modelled as readable
(deflate-level failures are collapsed, as for `tarProbe`). -/
def gzipProbe (b : Bytes) : Except PyErr Bool :=
  if b.isEmpty then .ok true
  else if gzipMagic.isPrefixOf b then
    (if b.length < 10 then .error .eofError else .ok true)
  else .ok false

/-- Models the structural check of `zipfile.is_zipfile`: the file ends with
an end-of-central-directory record. -/
def zipCheck (b : Bytes) : Bool := zipEocd.isSuffixOf b

/-- Remaining eight bytes of a gzip member header after the two magic
bytes (compression method 8 = deflate, empty flags, zero mtime, XFL and
OS), completing the fixed 10-byte header. -/
def gzipHeaderTail : Bytes := [0x08, 0x00, 0x00, 0x00, 0x00, 0x00, 0x00, 0x00]

/-- Models reading a whole gzip stream during extraction: an empty stream
decompresses to no bytes, a stream with the magic and a complete 10-byte
header to its payload (kept in the model as the bytes after the header),
anything else fails while copying and is reported as the corrupt-stream
failure.  (The model does not distinguish the exception class of a failed
copy — `BadGzipFile`, `EOFError` or `zlib.error` — because the coordinator
only invokes this extractor after its detector matched, which rules the
failing branches out.) -/
def gzipDecodeBytes (b : Bytes) : Except PyErr Bytes :=
  if b.isEmpty then .ok []
  else if gzipMagic.isPrefixOf b then
    (if b.length < 10 then .error .corruptStream else .ok (b.drop 10))
  else .error .corruptStream

/-- Models reading a whole xz stream via `lzma.open`: the header magic must
be present; the payload is modelled as the bytes after the magic. -/
def xzDecodeBytes (b : Bytes) : Except PyErr Bytes :=
  if xzMagic.isPrefixOf b then .ok (b.drop 6) else .error .corruptStream

/-- Models a gzip compression of `payload` produced outside this subsystem:
the full 10-byte header followed by the payload. -/
def gzipEncodeBytes (payload : Bytes) : Bytes := gzipMagic ++ gzipHeaderTail ++ payload

/-- Models an xz compression of `payload` produced outside this subsystem. -/
def xzEncodeBytes (payload : Bytes) : Bytes := xzMagic ++ payload

/-- Models the members `extractall` unpacks from a tar archive: a function
of the archive bytes alone, kept as one member holding the bytes after the
header block. -/
def tarEntries (b : Bytes) : List (String × Bytes) := [("data", b.drop 512)]

/-- Models the members `extractall` unpacks from a zip archive. -/
def zipEntries (b : Bytes) : List (String × Bytes) := [("data", b)]

/-- Models the members the `rarfile` library unpacks from a rar archive. -/
def rarEntries (b : Bytes) : List (String × Bytes) := [("data", b)]

/-- Models `extractall(output)` of the tarfile, zipfile and rarfile
libraries: the members are written into the directory at `output`, merged
with whatever the directory already holds, the directory being created when
absent.  (A non-directory at `output` is not reachable from the
coordinator, which recreates the directory beforehand.) -/
def extractallInto (fs : Fs) (output : String) (entries : List (String × Bytes)) : Fs :=
  match lookupFs fs output with
  | some (.dir old) => setFs fs output (.dir (old ++ entries))
  | _ => setFs fs output (.dir entries)

/-- Registered formats, tagging the five extractor classes. -/
inductive Format where
  | tar
  | gzip
  | zip
  | xz
  | rar
deriving DecidableEq

/-- Observable locking and filesystem events of one extraction, in order. -/
inductive Ev where
  | acquire (lock : String)
  | release (lock : String)
  | rmtreeEv (p : String)
  | makedirsEv (p : String)
  | invoke (f : Format)
  | rmdirEv (p : String)
  | writeEv (p : String)
  | unpackEv (p : String)
deriving DecidableEq

deriving instance DecidableEq for Except

/-- Result of a stateful operation: the Python-level outcome, the final
filesystem, and the trace of observable events. -/
structure R where
  res : Except PyErr Unit
  fs : Fs
  tr : List Ev
deriving DecidableEq

namespace TarExtractor

/-- Models `TarExtractor.is_extractable`: `tarfile.is_tarfile(path)`.
Opening the file can raise an `OSError`, which `is_tarfile` does not catch
(it catches only `TarError`, turning malformed layouts into `False`); and
on a readable file the probe itself can raise — see `tarProbe` for the
`EOFError` escaping through the transparent gzip layer. -/
def is_extractable (fs : Fs) (path : String) : Except PyErr Bool :=
  match openRead fs path with
  | .error e => .error e
  | .ok b => tarProbe b

/-- Models `TarExtractor.extract`: `tarfile.open(input_path)` followed by
`extractall(output_path)`. -/
def extract (fs : Fs) (input_path output_path : String) : R :=
  match openRead fs input_path with
  | .error e => ⟨.error e, fs, []⟩
  | .ok b => ⟨.ok (), extractallInto fs output_path (tarEntries b), [.unpackEv output_path]⟩

end TarExtractor

namespace GzipExtractor

/-- Models `GzipExtractor.is_extractable`: `gzip.open(path, "r")` and then
`fh.read(1)` inside `try/except OSError`.  The open itself stands outside
the `try`, so an `OSError` raised while opening propagates; the read's
outcome is `gzipProbe` — an `OSError` raised by the read (wrong magic) is
swallowed into `False`, while the `EOFError` of a truncated magic-bearing
stream escapes the handler and propagates. -/
def is_extractable (fs : Fs) (path : String) : Except PyErr Bool :=
  match openRead fs path with
  | .error e => .error e
  | .ok b => gzipProbe b

/-- Models `GzipExtractor.extract`: `os.rmdir(output_path)` first, then the
decompressed stream of `input_path` is copied into a fresh regular file at
`output_path`.  A decode failure surfaces only while copying, after the
output file was created. -/
def extract (fs : Fs) (input_path output_path : String) : R :=
  match rmdir fs output_path with
  | .error e => ⟨.error e, fs, [.rmdirEv output_path]⟩
  | .ok fs1 =>
    match openRead fs1 input_path with
    | .error e => ⟨.error e, fs1, [.rmdirEv output_path]⟩
    | .ok b =>
      match gzipDecodeBytes b with
      | .ok payload =>
        ⟨.ok (), setFs fs1 output_path (.file payload), [.rmdirEv output_path, .writeEv output_path]⟩
      | .error e =>
        ⟨.error e, setFs fs1 output_path (.file []), [.rmdirEv output_path, .writeEv output_path]⟩

end GzipExtractor

namespace ZipExtractor

/-- Models `ZipExtractor.is_extractable`: `zipfile.is_zipfile(path)`, which
wraps both the open and the structural check in `try/except OSError` and
answers `False` on any `OSError`, so it never raises. -/
def is_extractable (fs : Fs) (path : String) : Except PyErr Bool :=
  .ok (match openRead fs path with
       | .error _ => false
       | .ok b => zipCheck b)

/-- Models `ZipExtractor.extract`: `ZipFile(input_path)` followed by
`extractall(output_path)`. -/
def extract (fs : Fs) (input_path output_path : String) : R :=
  match openRead fs input_path with
  | .error e => ⟨.error e, fs, []⟩
  | .ok b => ⟨.ok (), extractallInto fs output_path (zipEntries b), [.unpackEv output_path]⟩

end ZipExtractor

namespace XzExtractor

/-- Models `XzExtractor.is_extractable`: `open(path, "rb")` outside the
`try` (so an open failure propagates), then `f.read(6)` inside
`try/except OSError`, comparing against the xz header magic; a short read
simply fails the comparison. -/
def is_extractable (fs : Fs) (path : String) : Except PyErr Bool :=
  match openRead fs path with
  | .error e => .error e
  | .ok b => .ok (b.take 6 == xzMagic)

/-- Models `XzExtractor.extract`: `os.rmdir(output_path)` first, then the
decompressed stream of `input_path` is copied into a fresh regular file at
`output_path`. -/
def extract (fs : Fs) (input_path output_path : String) : R :=
  match rmdir fs output_path with
  | .error e => ⟨.error e, fs, [.rmdirEv output_path]⟩
  | .ok fs1 =>
    match openRead fs1 input_path with
    | .error e => ⟨.error e, fs1, [.rmdirEv output_path]⟩
    | .ok b =>
      match xzDecodeBytes b with
      | .ok payload =>
        ⟨.ok (), setFs fs1 output_path (.file payload), [.rmdirEv output_path, .writeEv output_path]⟩
      | .error e =>
        ⟨.error e, setFs fs1 output_path (.file []), [.rmdirEv output_path, .writeEv output_path]⟩

end XzExtractor

namespace RarExtractor

/-- Models `RarExtractor.is_extractable`: read the first 8 bytes and test
them against the RAR4 and RAR5 signatures.  Nothing is caught, so any
`OSError` raised while opening or reading propagates to the caller. -/
def is_extractable (fs : Fs) (path : String) : Except PyErr Bool :=
  match openRead fs path with
  | .error e => .error e
  | .ok b =>
    let buf := b.take 8
    .ok (RAR_ID.isPrefixOf buf || RAR5_ID.isPrefixOf buf)

/-- Models `RarExtractor.extract`.  The guard reads
`datasets.config.RARFILE_AVAILABLE`; that module is not among the sources
at hand, so — modelled from the spec: the externally-configured boolean
capability flag gating Rar extraction — it is threaded through as the
`RARFILE_AVAILABLE` parameter.  With the flag set, `rarfile.RarFile` plus
`extractall` unpack the members; with it unset the method raises
`EnvironmentError("Please pip install rarfile")` without touching the
filesystem. -/
def extract (RARFILE_AVAILABLE : Bool) (fs : Fs) (input_path output_path : String) : R :=
  match RARFILE_AVAILABLE with
  | true =>
    match openRead fs input_path with
    | .error e => ⟨.error e, fs, []⟩
    | .ok b => ⟨.ok (), extractallInto fs output_path (rarEntries b), [.unpackEv output_path]⟩
  | false => ⟨.error .missingRarfile, fs, []⟩

end RarExtractor

/-- Detector of a registered format, dispatching to the class. -/
def formatIsExtractable : Format → Fs → String → Except PyErr Bool
  | .tar => TarExtractor.is_extractable
  | .gzip => GzipExtractor.is_extractable
  | .zip => ZipExtractor.is_extractable
  | .xz => XzExtractor.is_extractable
  | .rar => RarExtractor.is_extractable

/-- Extraction procedure of a registered format, dispatching to the class;
an `invoke` event records which extractor ran. -/
def formatExtract (f : Format) (RARFILE_AVAILABLE : Bool) (fs : Fs)
    (input_path output_path : String) : R :=
  let r : R :=
    match f with
    | .tar => TarExtractor.extract fs input_path output_path
    | .gzip => GzipExtractor.extract fs input_path output_path
    | .zip => ZipExtractor.extract fs input_path output_path
    | .xz => XzExtractor.extract fs input_path output_path
    | .rar => RarExtractor.extract RARFILE_AVAILABLE fs input_path output_path
  ⟨r.res, r.fs, .invoke f :: r.tr⟩

namespace Extractor

/-- Models `Extractor.extractors`, the registered classes in their priority
order. -/
def extractors : List Format := [.tar, .gzip, .zip, .xz, .rar]

/-- Models the generator expression
`any(extractor.is_extractable(path) for extractor in cls.extractors)`:
detectors run in order, evaluation stops at the first `True`, and an
exception raised by a detector propagates. -/
def anyExtractable (fs : Fs) (path : String) : List Format → Except PyErr Bool
  | [] => .ok false
  | f :: rest =>
    match formatIsExtractable f fs path with
    | .error e => .error e
    | .ok true => .ok true
    | .ok false => anyExtractable fs path rest

/-- Models `Extractor.is_extractable`. -/
def is_extractable (fs : Fs) (path : String) : Except PyErr Bool :=
  anyExtractable fs path extractors

/-- Models the `for extractor in cls.extractors:` loop inside the lock: the
first extractor whose detector answers `True` runs and the loop breaks;
when nothing matches the loop falls through without error; a detector
exception propagates. -/
def extractLoop (RARFILE_AVAILABLE : Bool) (fs : Fs) (input_path output_path : String) :
    List Format → R
  | [] => ⟨.ok (), fs, []⟩
  | f :: rest =>
    match formatIsExtractable f fs input_path with
    | .error e => ⟨.error e, fs, []⟩
    | .ok true => formatExtract f RARFILE_AVAILABLE fs input_path output_path
    | .ok false => extractLoop RARFILE_AVAILABLE fs input_path output_path rest

/-- Models `Extractor.extract`: detection first, raising the
unknown-archive-format `EnvironmentError` when nothing matches; then —
modelled from the spec, `datasets.utils.filelock.FileLock` not being among
the sources at hand — a scoped acquisition of the lock at
`input_path + ".lock"` with guaranteed release on every exit path, recorded
as `acquire`/`release` events; inside the lock `shutil.rmtree` and
`os.makedirs` recreate the output, and the loop runs the first matching
extractor.  An exception from the locked region propagates after the
release. -/
def extract (RARFILE_AVAILABLE : Bool) (fs : Fs) (input_path output_path : String) : R :=
  match is_extractable fs input_path with
  | .error e => ⟨.error e, fs, []⟩
  | .ok false => ⟨.error (.unknownArchiveFormat input_path), fs, []⟩
  | .ok true =>
    let lock_path := input_path ++ ".lock"
    let fs1 := rmtree_ignore_errors fs output_path
    match makedirs_exist_ok fs1 output_path with
    | .error e =>
      ⟨.error e, fs1,
        [.acquire lock_path, .rmtreeEv output_path, .makedirsEv output_path, .release lock_path]⟩
    | .ok fs2 =>
      let r := extractLoop RARFILE_AVAILABLE fs2 input_path output_path extractors
      ⟨r.res, r.fs,
        .acquire lock_path :: .rmtreeEv output_path :: .makedirsEv output_path ::
          r.tr ++ [.release lock_path]⟩

end Extractor

/-- Output states the coordinator's recreate step can clear: a directory or
nothing at all. -/
def dirOrAbsent : Option Node → Bool
  | none => true
  | some (.dir _) => true
  | _ => false

/-- Formats recorded as invoked in a trace. -/
def invokedFormats (tr : List Ev) : List Format :=
  tr.filterMap fun e =>
    match e with
    | .invoke f => some f
    | _ => none

/-- First registered format whose detector matches, scanning a list in
order and propagating detector exceptions. -/
def firstMatchIn (fs : Fs) (path : String) : List Format → Except PyErr (Option Format)
  | [] => .ok none
  | f :: rest =>
    match formatIsExtractable f fs path with
    | .error e => .error e
    | .ok true => .ok (some f)
    | .ok false => firstMatchIn fs path rest

/-- First registered format whose detector matches, in priority order. -/
def firstMatch (fs : Fs) (path : String) : Except PyErr (Option Format) :=
  firstMatchIn fs path Extractor.extractors

/-! Concrete fixtures used by counterexamples and witnesses. -/

/-- Plain text bytes, the string "hello world". -/
def plainText : Bytes := [0x68, 0x65, 0x6c, 0x6c, 0x6f, 0x20, 0x77, 0x6f, 0x72, 0x6c, 0x64]

/-- Minimal tar archive: one 512-byte header block carrying the ustar magic. -/
def tarFixture : Bytes := List.replicate 257 0 ++ ustarMagic ++ List.replicate 250 0

/-- Gzip archive holding the payload `[1, 2, 3]`. -/
def gzFixture : Bytes := gzipEncodeBytes [1, 2, 3]

/-- Xz archive holding the payload `[4, 5]`. -/
def xzFixture : Bytes := xzEncodeBytes [4, 5]

/-- RAR4 archive fixture. -/
def rarFixture : Bytes := RAR_ID ++ [9, 9]

/-- RAR5 archive fixture. -/
def rar5Fixture : Bytes := RAR5_ID ++ [8]

/-- Filesystem holding only a plain text file. -/
def fsText : Fs := [("note.txt", .file plainText)]

/-- Filesystem with a gzip input and a regular file at the output path. -/
def fsC2 : Fs := [("in.gz", .file gzFixture), ("out", .file [7])]

/-- Filesystem holding only a gzip input. -/
def fsC2w : Fs := [("w.gz", .file gzFixture)]

/-- Filesystem with an xz input and a regular file at the output path. -/
def fsC3 : Fs := [("a.xz", .file xzFixture), ("dest", .file [1])]

/-- Filesystem holding only a gzip input. -/
def fsC3w : Fs := [("c.gz", .file gzFixture)]

/-- Filesystem holding one existing but unopenable file. -/
def fsC4 : Fs := [("secret", .unreadable)]

/-- Filesystem holding one readable non-archive file. -/
def fsC4w : Fs := [("plain.bin", .file plainText)]

/-- Filesystem holding a readable file of just the two gzip magic bytes: a
truncated gzip member header. -/
def fsC4t : Fs := [("trunc.gz", .file [0x1f, 0x8b])]

/-- Filesystem with a gzip input and the empty placeholder directory the
coordinator pre-creates. -/
def fsC5 : Fs := [("p.gz", .file gzFixture), ("odir", .dir [])]

/-- Filesystem with an xz input and the empty placeholder directory. -/
def fsC5x : Fs := [("p.xz", .file xzFixture), ("xdir", .dir [])]

/-- Filesystem holding one empty (zero-byte) file. -/
def fsC6 : Fs := [("blob", .file [])]

/-- Filesystem holding a plain text file and an empty file. -/
def fsC6w : Fs := [("memo.txt", .file plainText), ("z", .file [])]

/-- Filesystem holding only a rar input. -/
def fsC7 : Fs := [("r.rar", .file rarFixture)]

/-- Filesystem with a rar input and a regular file at the output path. -/
def fsC8 : Fs := [("arch.rar", .file rarFixture), ("tgt", .file [3])]

/-- Filesystem holding only a rar input. -/
def fsC8w : Fs := [("k.rar", .file rarFixture)]

/-- Filesystem holding only a gzip input, for the double-extraction run. -/
def fsC9 : Fs := [("d.gz", .file (gzipEncodeBytes [5, 6]))]

/-- Filesystem holding only a tar input, for the double-extraction run. -/
def fsC9w : Fs := [("t.tar", .file tarFixture)]

/-- Filesystem with a RAR5 input and a regular file at the output path. -/
def fsC10 : Fs := [("b.rar", .file rar5Fixture), ("eout", .file [2])]

/-- Filesystem holding only a RAR5 input. -/
def fsC10w : Fs := [("m.rar", .file rar5Fixture)]

/-! Lemmas about the filesystem model. -/

theorem lookupFs_removeFs_self (fs : Fs) (p : String) : lookupFs (removeFs fs p) p = none := by
  induction fs with
  | nil => rfl
  | cons hd tl ih =>
    obtain ⟨q, n⟩ := hd
    by_cases h : q = p
    · simpa [removeFs, h] using ih
    · simp [removeFs, lookupFs, h, ih]

theorem lookupFs_removeFs_ne (fs : Fs) {p q : String} (h : p ≠ q) :
    lookupFs (removeFs fs p) q = lookupFs fs q := by
  induction fs with
  | nil => rfl
  | cons hd tl ih =>
    obtain ⟨a, n⟩ := hd
    by_cases ha : a = p
    · subst ha
      simp [removeFs, lookupFs, h, ih]
    · simp [removeFs, lookupFs, ha, ih]

theorem lookupFs_setFs_self (fs : Fs) (p : String) (n : Node) :
    lookupFs (setFs fs p n) p = some n := by
  simp [setFs, lookupFs]

theorem lookupFs_setFs_ne (fs : Fs) (n : Node) {p q : String} (h : p ≠ q) :
    lookupFs (setFs fs p n) q = lookupFs fs q := by
  simp [setFs, lookupFs, h, lookupFs_removeFs_ne fs h]

theorem openRead_congr {fs fs' : Fs} {p : String}
    (h : lookupFs fs p = lookupFs fs' p) : openRead fs p = openRead fs' p := by
  simp [openRead, h]

theorem openRead_error {fs : Fs} {p : String} {e : PyErr}
    (h : openRead fs p = .error e) : e = .osError := by
  unfold openRead at h
  split at h <;> simp_all

theorem openRead_file {fs : Fs} {p : String} {b : Bytes}
    (h : lookupFs fs p = some (.file b)) : openRead fs p = .ok b := by
  simp [openRead, h]

theorem openRead_not_file {fs : Fs} {p : String}
    (h : ∀ b, lookupFs fs p ≠ some (.file b)) : openRead fs p = .error .osError := by
  unfold openRead
  cases hL : lookupFs fs p with
  | none => rfl
  | some n => cases n with
    | file b => exact absurd hL (h b)
    | dir es => rfl
    | unreadable => rfl

/-! Lemmas about the detectors. -/

theorem detectors_on_file {fs : Fs} {p : String} {b : Bytes}
    (h : lookupFs fs p = some (.file b)) :
    TarExtractor.is_extractable fs p = tarProbe b ∧
    GzipExtractor.is_extractable fs p = gzipProbe b ∧
    ZipExtractor.is_extractable fs p = .ok (zipCheck b) ∧
    XzExtractor.is_extractable fs p = .ok (b.take 6 == xzMagic) ∧
    RarExtractor.is_extractable fs p =
      .ok (RAR_ID.isPrefixOf (b.take 8) || RAR5_ID.isPrefixOf (b.take 8)) := by
  have ho := openRead_file h
  refine ⟨?_, ?_, ?_, ?_, ?_⟩ <;>
    simp [TarExtractor.is_extractable, GzipExtractor.is_extractable, ZipExtractor.is_extractable,
      XzExtractor.is_extractable, RarExtractor.is_extractable, ho]

theorem tarProbe_of_not_gzip {b : Bytes} (h : gzipMagic.isPrefixOf b = false) :
    tarProbe b = .ok (tarCheck b) := by
  simp [tarProbe, h]

theorem gzipProbe_of_not_gzip {b : Bytes} (h : gzipMagic.isPrefixOf b = false) :
    gzipProbe b = .ok b.isEmpty := by
  cases hbe : b.isEmpty <;> simp [gzipProbe, hbe, h]

theorem gzip_isPrefixOf_not_empty {b : Bytes} (h : gzipMagic.isPrefixOf b = true) :
    b.isEmpty = false := by
  cases b with
  | nil => simp [gzipMagic, List.isPrefixOf] at h
  | cons x xs => rfl

theorem tarProbe_truncated {b : Bytes} (h1 : gzipMagic.isPrefixOf b = true)
    (h2 : b.length < 10) : tarProbe b = .error .eofError := by
  simp [tarProbe, h1, h2]

theorem gzipProbe_truncated {b : Bytes} (h1 : gzipMagic.isPrefixOf b = true)
    (h2 : b.length < 10) : gzipProbe b = .error .eofError := by
  simp [gzipProbe, gzip_isPrefixOf_not_empty h1, h1, h2]

theorem tarProbe_error {b : Bytes} {e : PyErr} (h : tarProbe b = .error e) :
    e = .eofError := by
  unfold tarProbe at h
  split at h
  · split at h
    · injection h with h2
      exact h2.symm
    · exact absurd h (by simp)
  · exact absurd h (by simp)

theorem gzipProbe_error {b : Bytes} {e : PyErr} (h : gzipProbe b = .error e) :
    e = .eofError := by
  unfold gzipProbe at h
  split at h
  · exact absurd h (by simp)
  · split at h
    · split at h
      · injection h with h2
        exact h2.symm
      · exact absurd h (by simp)
    · exact absurd h (by simp)

theorem detectors_on_non_file {fs : Fs} {p : String}
    (h : ∀ b, lookupFs fs p ≠ some (.file b)) :
    TarExtractor.is_extractable fs p = .error .osError ∧
    GzipExtractor.is_extractable fs p = .error .osError ∧
    ZipExtractor.is_extractable fs p = .ok false ∧
    XzExtractor.is_extractable fs p = .error .osError ∧
    RarExtractor.is_extractable fs p = .error .osError := by
  have ho := openRead_not_file h
  refine ⟨?_, ?_, ?_, ?_, ?_⟩ <;>
    simp [TarExtractor.is_extractable, GzipExtractor.is_extractable, ZipExtractor.is_extractable,
      XzExtractor.is_extractable, RarExtractor.is_extractable, ho]

theorem formatIsExtractable_congr {fs fs' : Fs} {p : String}
    (h : lookupFs fs p = lookupFs fs' p) (f : Format) :
    formatIsExtractable f fs p = formatIsExtractable f fs' p := by
  have ho := openRead_congr h
  cases f <;>
    simp [formatIsExtractable, TarExtractor.is_extractable, GzipExtractor.is_extractable,
      ZipExtractor.is_extractable, XzExtractor.is_extractable, RarExtractor.is_extractable, ho]

theorem formatIsExtractable_error {f : Format} {fs : Fs} {p : String} {e : PyErr}
    (h : formatIsExtractable f fs p = .error e) : e = .osError ∨ e = .eofError := by
  cases f with
  | tar =>
    simp only [formatIsExtractable, TarExtractor.is_extractable] at h
    split at h
    next e1 heq =>
      injection h with h2
      exact Or.inl (h2 ▸ openRead_error heq)
    next b heq => exact Or.inr (tarProbe_error h)
  | gzip =>
    simp only [formatIsExtractable, GzipExtractor.is_extractable] at h
    split at h
    next e1 heq =>
      injection h with h2
      exact Or.inl (h2 ▸ openRead_error heq)
    next b heq => exact Or.inr (gzipProbe_error h)
  | zip =>
    simp only [formatIsExtractable, ZipExtractor.is_extractable] at h
    exact absurd h (by simp)
  | xz =>
    simp only [formatIsExtractable, XzExtractor.is_extractable] at h
    split at h
    next e1 heq =>
      injection h with h2
      exact Or.inl (h2 ▸ openRead_error heq)
    next b heq => exact absurd h (by simp)
  | rar =>
    simp only [formatIsExtractable, RarExtractor.is_extractable] at h
    split at h
    next e1 heq =>
      injection h with h2
      exact Or.inl (h2 ▸ openRead_error heq)
    next b heq => exact absurd h (by simp)

/-! Lemmas about the ordered detector scan. -/

theorem anyExtractable_eq_firstMatchIn (fs : Fs) (p : String) (L : List Format) :
    Extractor.anyExtractable fs p L = (firstMatchIn fs p L).map Option.isSome := by
  induction L with
  | nil => rfl
  | cons f rest ih =>
    simp only [Extractor.anyExtractable, firstMatchIn]
    cases h : formatIsExtractable f fs p with
    | error e => simp [Except.map]
    | ok b => cases b <;> simp [ih, Except.map]

theorem is_extractable_eq_firstMatch (fs : Fs) (p : String) :
    Extractor.is_extractable fs p = (firstMatch fs p).map Option.isSome :=
  anyExtractable_eq_firstMatchIn fs p Extractor.extractors

theorem firstMatchIn_error {fs : Fs} {p : String} {L : List Format} {e : PyErr}
    (h : firstMatchIn fs p L = .error e) : e = .osError ∨ e = .eofError := by
  induction L with
  | nil => simp [firstMatchIn] at h
  | cons f rest ih =>
    simp only [firstMatchIn] at h
    cases hf : formatIsExtractable f fs p with
    | error e1 =>
      rw [hf] at h
      injection h with h2
      exact h2 ▸ formatIsExtractable_error hf
    | ok b =>
      rw [hf] at h
      cases b
      · exact ih h
      · simp at h

theorem is_extractable_true_iff (fs : Fs) (p : String) :
    Extractor.is_extractable fs p = .ok true ↔ ∃ f, firstMatch fs p = .ok (some f) := by
  rw [is_extractable_eq_firstMatch]
  cases h : firstMatch fs p with
  | error e => simp [Except.map]
  | ok o => cases o <;> simp [Except.map]

theorem is_extractable_false_iff (fs : Fs) (p : String) :
    Extractor.is_extractable fs p = .ok false ↔ firstMatch fs p = .ok none := by
  rw [is_extractable_eq_firstMatch]
  cases h : firstMatch fs p with
  | error e => simp [Except.map]
  | ok o => cases o <;> simp [Except.map]

theorem is_extractable_congr {fs fs' : Fs} {p : String}
    (h : lookupFs fs p = lookupFs fs' p) :
    Extractor.is_extractable fs p = Extractor.is_extractable fs' p := by
  unfold Extractor.is_extractable
  induction Extractor.extractors with
  | nil => rfl
  | cons f rest ih =>
    simp only [Extractor.anyExtractable, formatIsExtractable_congr h f, ih]

theorem is_extractable_true_file {fs : Fs} {p : String}
    (h : Extractor.is_extractable fs p = .ok true) :
    ∃ b, lookupFs fs p = some (.file b) := by
  cases hL : lookupFs fs p with
  | some n =>
    cases n with
    | file b => exact ⟨b, rfl⟩
    | dir es =>
      have := (@detectors_on_non_file fs p (by simp [hL])).1
      simp [Extractor.is_extractable, Extractor.anyExtractable, Extractor.extractors,
        formatIsExtractable, this] at h
    | unreadable =>
      have := (@detectors_on_non_file fs p (by simp [hL])).1
      simp [Extractor.is_extractable, Extractor.anyExtractable, Extractor.extractors,
        formatIsExtractable, this] at h
  | none =>
    have := (@detectors_on_non_file fs p (by simp [hL])).1
    simp [Extractor.is_extractable, Extractor.anyExtractable, Extractor.extractors,
      formatIsExtractable, this] at h

/-! Lemmas about the extraction loop. -/

theorem extractLoop_of_firstMatchIn (ra : Bool) (fs2 fs : Fs) (inp out : String)
    (L : List Format) (hin : lookupFs fs2 inp = lookupFs fs inp) :
    (firstMatchIn fs inp L = .ok none →
      Extractor.extractLoop ra fs2 inp out L = ⟨.ok (), fs2, []⟩) ∧
    (∀ f, firstMatchIn fs inp L = .ok (some f) →
      Extractor.extractLoop ra fs2 inp out L = formatExtract f ra fs2 inp out) ∧
    (∀ e, firstMatchIn fs inp L = .error e →
      Extractor.extractLoop ra fs2 inp out L = ⟨.error e, fs2, []⟩) := by
  induction L with
  | nil =>
    refine ⟨fun _ => rfl, fun f h => ?_, fun e h => ?_⟩ <;> simp [firstMatchIn] at h
  | cons g rest ih =>
    have hg : formatIsExtractable g fs2 inp = formatIsExtractable g fs inp :=
      formatIsExtractable_congr hin g
    cases hd : formatIsExtractable g fs inp with
    | error e1 =>
      refine ⟨fun h => ?_, fun f h => ?_, fun e h => ?_⟩ <;>
        simp only [firstMatchIn, hd] at h
      · exact absurd h (by simp)
      · exact absurd h (by simp)
      · injection h with h2
        subst h2
        simp only [Extractor.extractLoop, hg, hd]
    | ok b =>
      cases b with
      | false =>
        refine ⟨fun h => ?_, fun f h => ?_, fun e h => ?_⟩ <;>
          simp only [firstMatchIn, hd] at h <;>
          simp only [Extractor.extractLoop, hg, hd]
        · exact ih.1 h
        · exact ih.2.1 f h
        · exact ih.2.2 e h
      | true =>
        refine ⟨fun h => ?_, fun f h => ?_, fun e h => ?_⟩ <;>
          simp only [firstMatchIn, hd] at h
        · exact absurd h (by simp)
        · injection h with h2
          injection h2 with h3
          subst h3
          simp only [Extractor.extractLoop, hg, hd]
        · exact absurd h (by simp)

/-! Lemmas about the state operations of the locked phase. -/

theorem rmdir_ok {fs fs' : Fs} {p : String} (h : rmdir fs p = .ok fs') :
    fs' = removeFs fs p ∧ lookupFs fs p = some (.dir []) := by
  unfold rmdir at h
  split at h <;> simp_all

theorem rmdir_error_eq {fs : Fs} {p : String} {e : PyErr} (h : rmdir fs p = .error e) :
    e = .osError := by
  unfold rmdir at h
  split at h <;> simp_all

theorem gzipDecodeBytes_error {b : Bytes} {e : PyErr} (h : gzipDecodeBytes b = .error e) :
    e = .corruptStream := by
  unfold gzipDecodeBytes at h
  split at h <;> (try split at h) <;> (try split at h) <;> simp_all

theorem xzDecodeBytes_error {b : Bytes} {e : PyErr} (h : xzDecodeBytes b = .error e) :
    e = .corruptStream := by
  unfold xzDecodeBytes at h
  split at h <;> simp_all

theorem rmtree_preserves (fs : Fs) {p q : String} (hq : q ≠ p) :
    lookupFs (rmtree_ignore_errors fs p) q = lookupFs fs q := by
  unfold rmtree_ignore_errors
  split
  · exact lookupFs_removeFs_ne fs (Ne.symm hq)
  · rfl

theorem rmtree_not_dir_id {fs : Fs} {p : String} (h : dirOrAbsent (lookupFs fs p) = false) :
    rmtree_ignore_errors fs p = fs := by
  unfold rmtree_ignore_errors
  split
  next es heq => rw [heq] at h; simp [dirOrAbsent] at h
  next => rfl

theorem makedirs_not_dir {fs : Fs} {p : String} (h : dirOrAbsent (lookupFs fs p) = false) :
    makedirs_exist_ok fs p = .error .fileExistsError := by
  cases hL : lookupFs fs p with
  | none => rw [hL] at h; simp [dirOrAbsent] at h
  | some n =>
    cases n with
    | file b => simp [makedirs_exist_ok, hL]
    | dir es => rw [hL] at h; simp [dirOrAbsent] at h
    | unreadable => simp [makedirs_exist_ok, hL]

theorem makedirs_preserves {fs fs' : Fs} {p : String} (h : makedirs_exist_ok fs p = .ok fs')
    {q : String} (hq : q ≠ p) : lookupFs fs' q = lookupFs fs q := by
  unfold makedirs_exist_ok at h
  split at h
  next =>
    injection h with h2
    subst h2
    rfl
  next => exact absurd h (by simp)
  next =>
    injection h with h2
    subst h2
    exact lookupFs_setFs_ne fs _ (Ne.symm hq)

/-! Lemmas about the per-format extraction procedures. -/

theorem extractallInto_preserves (fs : Fs) (out : String) (es : List (String × Bytes))
    {q : String} (hq : q ≠ out) :
    lookupFs (extractallInto fs out es) q = lookupFs fs q := by
  unfold extractallInto
  split <;> exact lookupFs_setFs_ne _ _ (Ne.symm hq)

theorem formatExtract_preserves (f : Format) (ra : Bool) (fs : Fs) (inp out : String)
    {q : String} (hq : q ≠ out) :
    lookupFs (formatExtract f ra fs inp out).fs q = lookupFs fs q := by
  cases f with
  | tar =>
    dsimp only [formatExtract, TarExtractor.extract]
    split
    · rfl
    · exact extractallInto_preserves fs out _ hq
  | gzip =>
    dsimp only [formatExtract, GzipExtractor.extract]
    split
    next e h1 => rfl
    next fs1 h1 =>
      obtain ⟨hfs1, hdir⟩ := rmdir_ok h1
      subst hfs1
      split
      next => exact lookupFs_removeFs_ne fs (Ne.symm hq)
      next b h2 =>
        split <;>
          exact (lookupFs_setFs_ne _ _ (Ne.symm hq)).trans (lookupFs_removeFs_ne fs (Ne.symm hq))
  | zip =>
    dsimp only [formatExtract, ZipExtractor.extract]
    split
    · rfl
    · exact extractallInto_preserves fs out _ hq
  | xz =>
    dsimp only [formatExtract, XzExtractor.extract]
    split
    next e h1 => rfl
    next fs1 h1 =>
      obtain ⟨hfs1, hdir⟩ := rmdir_ok h1
      subst hfs1
      split
      next => exact lookupFs_removeFs_ne fs (Ne.symm hq)
      next b h2 =>
        split <;>
          exact (lookupFs_setFs_ne _ _ (Ne.symm hq)).trans (lookupFs_removeFs_ne fs (Ne.symm hq))
  | rar =>
    dsimp only [formatExtract, RarExtractor.extract]
    split
    · split
      · rfl
      · exact extractallInto_preserves fs out _ hq
    · rfl

theorem formatExtract_error_cases {f : Format} {ra : Bool} {fs : Fs} {inp out : String}
    {e : PyErr} (h : (formatExtract f ra fs inp out).res = .error e) :
    e = .osError ∨ e = .corruptStream ∨ e = .missingRarfile := by
  cases f <;>
    dsimp only [formatExtract, TarExtractor.extract, GzipExtractor.extract, ZipExtractor.extract,
      XzExtractor.extract, RarExtractor.extract] at h <;>
    (repeat' split at h) <;>
    simp_all <;>
    first
      | exact Or.inl (openRead_error (by assumption))
      | exact Or.inl (rmdir_error_eq (by assumption))
      | exact Or.inr (Or.inl (gzipDecodeBytes_error (by assumption)))
      | exact Or.inr (Or.inl (xzDecodeBytes_error (by assumption)))

theorem invokedFormats_formatExtract (f : Format) (ra : Bool) (fs : Fs) (inp out : String) :
    invokedFormats (formatExtract f ra fs inp out).tr = [f] := by
  cases f <;>
    dsimp only [formatExtract, TarExtractor.extract, GzipExtractor.extract, ZipExtractor.extract,
      XzExtractor.extract, RarExtractor.extract] <;>
    (repeat' split) <;>
    simp [invokedFormats, List.filterMap]

theorem extractLoop_preserves (ra : Bool) (fs : Fs) (inp out : String) (L : List Format)
    {q : String} (hq : q ≠ out) :
    lookupFs (Extractor.extractLoop ra fs inp out L).fs q = lookupFs fs q := by
  induction L with
  | nil => rfl
  | cons f rest ih =>
    dsimp only [Extractor.extractLoop]
    split
    · rfl
    · exact formatExtract_preserves f ra fs inp out hq
    · exact ih

theorem extractLoop_error_cases {ra : Bool} {fs : Fs} {inp out : String} {L : List Format}
    {e : PyErr} (h : (Extractor.extractLoop ra fs inp out L).res = .error e) :
    e = .osError ∨ e = .eofError ∨ e = .corruptStream ∨ e = .missingRarfile := by
  induction L with
  | nil => simp [Extractor.extractLoop] at h
  | cons f rest ih =>
    cases h1 : formatIsExtractable f fs inp with
    | error e1 =>
      have h2 : Extractor.extractLoop ra fs inp out (f :: rest) = ⟨.error e1, fs, []⟩ := by
        simp [Extractor.extractLoop, h1]
      rw [h2] at h
      simp at h
      subst h
      rcases formatIsExtractable_error h1 with h3 | h3
      · exact Or.inl h3
      · exact Or.inr (Or.inl h3)
    | ok b =>
      cases b with
      | true =>
        have h2 : Extractor.extractLoop ra fs inp out (f :: rest) =
            formatExtract f ra fs inp out := by
          simp [Extractor.extractLoop, h1]
        rw [h2] at h
        rcases formatExtract_error_cases h with h3 | h3 | h3
        · exact Or.inl h3
        · exact Or.inr (Or.inr (Or.inl h3))
        · exact Or.inr (Or.inr (Or.inr h3))
      | false =>
        have h2 : Extractor.extractLoop ra fs inp out (f :: rest) =
            Extractor.extractLoop ra fs inp out rest := by
          simp [Extractor.extractLoop, h1]
        rw [h2] at h
        exact ih h

/-! The locked phase of the coordinator. -/

theorem extract_locked_run (ra : Bool) (fs : Fs) (inp out : String)
    (h : Extractor.is_extractable fs inp = .ok true)
    (hout : dirOrAbsent (lookupFs fs out) = true) :
    ∃ fs2, makedirs_exist_ok (rmtree_ignore_errors fs out) out = .ok fs2 ∧
      lookupFs fs2 out = some (.dir []) ∧
      (∀ q, q ≠ out → lookupFs fs2 q = lookupFs fs q) ∧
      Extractor.extract ra fs inp out =
        ⟨(Extractor.extractLoop ra fs2 inp out Extractor.extractors).res,
         (Extractor.extractLoop ra fs2 inp out Extractor.extractors).fs,
         .acquire (inp ++ ".lock") :: .rmtreeEv out :: .makedirsEv out ::
           (Extractor.extractLoop ra fs2 inp out Extractor.extractors).tr ++
             [.release (inp ++ ".lock")]⟩ := by
  cases hL : lookupFs fs out with
  | none =>
    have h1 : rmtree_ignore_errors fs out = fs := by
      unfold rmtree_ignore_errors
      rw [hL]
    have h2 : makedirs_exist_ok fs out = .ok (setFs fs out (.dir [])) := by
      unfold makedirs_exist_ok
      rw [hL]
    refine ⟨setFs fs out (.dir []), by rw [h1]; exact h2,
      lookupFs_setFs_self fs out _, fun q hq => lookupFs_setFs_ne fs _ (Ne.symm hq), ?_⟩
    simp only [Extractor.extract, h, h1, h2]
  | some n =>
    cases n with
    | file b =>
      rw [hL] at hout
      simp [dirOrAbsent] at hout
    | unreadable =>
      rw [hL] at hout
      simp [dirOrAbsent] at hout
    | dir es =>
      have h1 : rmtree_ignore_errors fs out = removeFs fs out := by
        unfold rmtree_ignore_errors
        rw [hL]
      have hnone : lookupFs (removeFs fs out) out = none := lookupFs_removeFs_self fs out
      have h2 : makedirs_exist_ok (removeFs fs out) out =
          .ok (setFs (removeFs fs out) out (.dir [])) := by
        unfold makedirs_exist_ok
        rw [hnone]
      refine ⟨setFs (removeFs fs out) out (.dir []), by rw [h1]; exact h2,
        lookupFs_setFs_self _ out _, fun q hq =>
          (lookupFs_setFs_ne _ _ (Ne.symm hq)).trans (lookupFs_removeFs_ne fs (Ne.symm hq)), ?_⟩
      simp only [Extractor.extract, h, h1, h2]

theorem extract_not_dir_run (ra : Bool) (fs : Fs) (inp out : String)
    (h : Extractor.is_extractable fs inp = .ok true)
    (hout : dirOrAbsent (lookupFs fs out) = false) :
    Extractor.extract ra fs inp out =
      ⟨.error .fileExistsError, fs,
        [.acquire (inp ++ ".lock"), .rmtreeEv out, .makedirsEv out,
         .release (inp ++ ".lock")]⟩ := by
  have h1 : rmtree_ignore_errors fs out = fs := rmtree_not_dir_id hout
  have h2 : makedirs_exist_ok fs out = .error .fileExistsError := makedirs_not_dir hout
  simp only [Extractor.extract, h, h1, h2]

/-! Congruence: the observables of the locked phase depend on the
filesystem only through the input bytes and the node at the output path. -/

theorem extractallInto_lookup_congr {fs fs' : Fs} {out : String}
    (hout : lookupFs fs out = lookupFs fs' out) (es : List (String × Bytes)) :
    lookupFs (extractallInto fs out es) out = lookupFs (extractallInto fs' out es) out := by
  unfold extractallInto
  rw [hout]
  cases lookupFs fs' out with
  | none => simp [lookupFs_setFs_self]
  | some n => cases n <;> simp [lookupFs_setFs_self]

theorem formatExtract_congr (f : Format) (ra : Bool) {fs fs' : Fs} {inp out : String}
    (hin : lookupFs fs inp = lookupFs fs' inp)
    (hout : lookupFs fs out = lookupFs fs' out) :
    (formatExtract f ra fs inp out).res = (formatExtract f ra fs' inp out).res ∧
    lookupFs (formatExtract f ra fs inp out).fs out =
      lookupFs (formatExtract f ra fs' inp out).fs out := by
  have ho : openRead fs inp = openRead fs' inp := openRead_congr hin
  cases f with
  | tar =>
    dsimp only [formatExtract, TarExtractor.extract]
    rw [ho]
    cases hop : openRead fs' inp with
    | error e => simp [hout]
    | ok b => simp [extractallInto_lookup_congr hout]
  | zip =>
    dsimp only [formatExtract, ZipExtractor.extract]
    rw [ho]
    cases hop : openRead fs' inp with
    | error e => simp [hout]
    | ok b => simp [extractallInto_lookup_congr hout]
  | rar =>
    cases ra with
    | false => exact ⟨rfl, hout⟩
    | true =>
      dsimp only [formatExtract, RarExtractor.extract]
      rw [ho]
      cases hop : openRead fs' inp with
      | error e => simp [hout]
      | ok b => simp [extractallInto_lookup_congr hout]
  | gzip =>
    dsimp only [formatExtract, GzipExtractor.extract]
    cases hL : lookupFs fs out with
    | none =>
      have hL' : lookupFs fs' out = none := hout ▸ hL
      have hr : rmdir fs out = .error .osError := by
        unfold rmdir
        rw [hL]
      have hr' : rmdir fs' out = .error .osError := by
        unfold rmdir
        rw [hL']
      simp [hr, hr', hout]
    | some n =>
      cases n with
      | file b =>
        have hL' : lookupFs fs' out = some (.file b) := hout ▸ hL
        have hr : rmdir fs out = .error .osError := by
          unfold rmdir
          rw [hL]
        have hr' : rmdir fs' out = .error .osError := by
          unfold rmdir
          rw [hL']
        simp [hr, hr', hout]
      | unreadable =>
        have hL' : lookupFs fs' out = some .unreadable := hout ▸ hL
        have hr : rmdir fs out = .error .osError := by
          unfold rmdir
          rw [hL]
        have hr' : rmdir fs' out = .error .osError := by
          unfold rmdir
          rw [hL']
        simp [hr, hr', hout]
      | dir es =>
        cases es with
        | cons x xs =>
          have hL' : lookupFs fs' out = some (.dir (x :: xs)) := hout ▸ hL
          have hr : rmdir fs out = .error .osError := by
            unfold rmdir
            rw [hL]
          have hr' : rmdir fs' out = .error .osError := by
            unfold rmdir
            rw [hL']
          simp [hr, hr', hout]
        | nil =>
          have hL' : lookupFs fs' out = some (.dir []) := hout ▸ hL
          have hr : rmdir fs out = .ok (removeFs fs out) := by
            unfold rmdir
            rw [hL]
          have hr' : rmdir fs' out = .ok (removeFs fs' out) := by
            unfold rmdir
            rw [hL']
          have hin1 : lookupFs (removeFs fs out) inp = lookupFs (removeFs fs' out) inp := by
            by_cases hio : inp = out
            · subst hio
              rw [lookupFs_removeFs_self, lookupFs_removeFs_self]
            · rw [lookupFs_removeFs_ne fs (fun hh => hio hh.symm),
                lookupFs_removeFs_ne fs' (fun hh => hio hh.symm)]
              exact hin
          have ho1 : openRead (removeFs fs out) inp = openRead (removeFs fs' out) inp :=
            openRead_congr hin1
          rw [hr, hr']
          dsimp only
          rw [ho1]
          cases hop : openRead (removeFs fs' out) inp with
          | error e =>
            simp [lookupFs_removeFs_self]
          | ok b =>
            cases hdec : gzipDecodeBytes b with
            | ok payload => simp [hdec, lookupFs_setFs_self]
            | error e => simp [hdec, lookupFs_setFs_self]
  | xz =>
    dsimp only [formatExtract, XzExtractor.extract]
    cases hL : lookupFs fs out with
    | none =>
      have hL' : lookupFs fs' out = none := hout ▸ hL
      have hr : rmdir fs out = .error .osError := by
        unfold rmdir
        rw [hL]
      have hr' : rmdir fs' out = .error .osError := by
        unfold rmdir
        rw [hL']
      simp [hr, hr', hout]
    | some n =>
      cases n with
      | file b =>
        have hL' : lookupFs fs' out = some (.file b) := hout ▸ hL
        have hr : rmdir fs out = .error .osError := by
          unfold rmdir
          rw [hL]
        have hr' : rmdir fs' out = .error .osError := by
          unfold rmdir
          rw [hL']
        simp [hr, hr', hout]
      | unreadable =>
        have hL' : lookupFs fs' out = some .unreadable := hout ▸ hL
        have hr : rmdir fs out = .error .osError := by
          unfold rmdir
          rw [hL]
        have hr' : rmdir fs' out = .error .osError := by
          unfold rmdir
          rw [hL']
        simp [hr, hr', hout]
      | dir es =>
        cases es with
        | cons x xs =>
          have hL' : lookupFs fs' out = some (.dir (x :: xs)) := hout ▸ hL
          have hr : rmdir fs out = .error .osError := by
            unfold rmdir
            rw [hL]
          have hr' : rmdir fs' out = .error .osError := by
            unfold rmdir
            rw [hL']
          simp [hr, hr', hout]
        | nil =>
          have hL' : lookupFs fs' out = some (.dir []) := hout ▸ hL
          have hr : rmdir fs out = .ok (removeFs fs out) := by
            unfold rmdir
            rw [hL]
          have hr' : rmdir fs' out = .ok (removeFs fs' out) := by
            unfold rmdir
            rw [hL']
          have hin1 : lookupFs (removeFs fs out) inp = lookupFs (removeFs fs' out) inp := by
            by_cases hio : inp = out
            · subst hio
              rw [lookupFs_removeFs_self, lookupFs_removeFs_self]
            · rw [lookupFs_removeFs_ne fs (fun hh => hio hh.symm),
                lookupFs_removeFs_ne fs' (fun hh => hio hh.symm)]
              exact hin
          have ho1 : openRead (removeFs fs out) inp = openRead (removeFs fs' out) inp :=
            openRead_congr hin1
          rw [hr, hr']
          dsimp only
          rw [ho1]
          cases hop : openRead (removeFs fs' out) inp with
          | error e =>
            simp [lookupFs_removeFs_self]
          | ok b =>
            cases hdec : xzDecodeBytes b with
            | ok payload => simp [hdec, lookupFs_setFs_self]
            | error e => simp [hdec, lookupFs_setFs_self]

theorem extractLoop_congr (ra : Bool) {fs fs' : Fs} {inp out : String} (L : List Format)
    (hin : lookupFs fs inp = lookupFs fs' inp)
    (hout : lookupFs fs out = lookupFs fs' out) :
    (Extractor.extractLoop ra fs inp out L).res = (Extractor.extractLoop ra fs' inp out L).res ∧
    lookupFs (Extractor.extractLoop ra fs inp out L).fs out =
      lookupFs (Extractor.extractLoop ra fs' inp out L).fs out := by
  induction L with
  | nil => exact ⟨rfl, hout⟩
  | cons f rest ih =>
    have hf : formatIsExtractable f fs inp = formatIsExtractable f fs' inp :=
      formatIsExtractable_congr hin f
    dsimp only [Extractor.extractLoop]
    rw [hf]
    cases hd : formatIsExtractable f fs' inp with
    | error e => exact ⟨rfl, hout⟩
    | ok b =>
      cases b with
      | false => exact ih
      | true => exact formatExtract_congr f ra hin hout

/-! Remaining helper lemmas. -/

theorem is_extractable_error {fs : Fs} {p : String} {e : PyErr}
    (h : Extractor.is_extractable fs p = .error e) : e = .osError ∨ e = .eofError := by
  rw [is_extractable_eq_firstMatch] at h
  cases hf : firstMatch fs p with
  | error e1 =>
    rw [hf] at h
    simp [Except.map] at h
    exact h ▸ firstMatchIn_error hf
  | ok o =>
    rw [hf] at h
    simp [Except.map] at h

theorem input_ne_output {fs : Fs} {inp out : String}
    (h : Extractor.is_extractable fs inp = .ok true)
    (hout : dirOrAbsent (lookupFs fs out) = true) : inp ≠ out := by
  obtain ⟨b, hb⟩ := is_extractable_true_file h
  intro hh
  rw [hh] at hb
  rw [hb] at hout
  simp [dirOrAbsent] at hout

theorem gzipDecodeBytes_encode (payload : Bytes) :
    gzipDecodeBytes (gzipEncodeBytes payload) = .ok payload := by
  have h1 : (gzipEncodeBytes payload).isEmpty = false := rfl
  have h2 : gzipMagic.isPrefixOf (gzipEncodeBytes payload) = true := by
    simp [gzipEncodeBytes, gzipMagic, gzipHeaderTail, List.isPrefixOf]
  have h3 : ¬ (gzipEncodeBytes payload).length < 10 := by
    simp [gzipEncodeBytes, gzipMagic, gzipHeaderTail]
  have h4 : (gzipEncodeBytes payload).drop 10 = payload := rfl
  simp [gzipDecodeBytes, h1, h2, h3, h4]

theorem xzDecodeBytes_encode (payload : Bytes) :
    xzDecodeBytes (xzEncodeBytes payload) = .ok payload := by
  simp [xzDecodeBytes, xzEncodeBytes, xzMagic, List.isPrefixOf]

theorem isPrefixOf_head {a : Nat} {pre b : Bytes}
    (hp : List.isPrefixOf (a :: pre) b = true) :
    ∃ tl, b = a :: tl := by
  cases b with
  | nil => simp [List.isPrefixOf] at hp
  | cons x xs =>
    simp [List.isPrefixOf] at hp
    exact ⟨xs, by rw [hp.1]⟩

theorem isPrefixOf_take {pre b : Bytes} {n : Nat} (h : pre.isPrefixOf b = true)
    (hn : pre.length ≤ n) : pre.isPrefixOf (b.take n) = true := by
  rw [List.isPrefixOf_iff_prefix] at h ⊢
  exact List.prefix_take_iff.2 ⟨h, hn⟩

theorem rar_detector_true {fs : Fs} {inp : String} {b : Bytes}
    (hin : lookupFs fs inp = some (.file b))
    (hrar : RAR_ID.isPrefixOf b = true ∨ RAR5_ID.isPrefixOf b = true) :
    RarExtractor.is_extractable fs inp = .ok true := by
  have h5 := (detectors_on_file hin).2.2.2.2
  have hrr : (RAR_ID.isPrefixOf (b.take 8) || RAR5_ID.isPrefixOf (b.take 8)) = true := by
    rcases hrar with hp | hp
    · rw [isPrefixOf_take hp (by decide : RAR_ID.length ≤ 8)]
      simp
    · rw [isPrefixOf_take hp (by decide : RAR5_ID.length ≤ 8)]
      simp
  rw [h5, hrr]

theorem rar_head_byte {b : Bytes}
    (hrar : RAR_ID.isPrefixOf b = true ∨ RAR5_ID.isPrefixOf b = true) :
    ∃ tl, b = 0x52 :: tl := by
  rcases hrar with hp | hp
  · exact isPrefixOf_head (by simpa [RAR_ID] using hp)
  · exact isPrefixOf_head (by simpa [RAR5_ID] using hp)

theorem rar_first_match {fs : Fs} {inp : String} {b : Bytes}
    (hin : lookupFs fs inp = some (.file b))
    (hrar : RAR_ID.isPrefixOf b = true ∨ RAR5_ID.isPrefixOf b = true)
    (htar : tarCheck b = false) (hzip : zipCheck b = false) :
    firstMatch fs inp = .ok (some .rar) := by
  obtain ⟨h1, h2, h3, h4, h5⟩ := detectors_on_file hin
  obtain ⟨tl, hbtl⟩ := rar_head_byte hrar
  have hrt := rar_detector_true hin hrar
  have hng : gzipMagic.isPrefixOf b = false := by
    rw [hbtl]
    simp [gzipMagic, List.isPrefixOf]
  have hbe : b.isEmpty = false := by
    rw [hbtl]
    rfl
  have htp : tarProbe b = .ok false := by
    rw [tarProbe_of_not_gzip hng, htar]
  have hgp : gzipProbe b = .ok false := by
    rw [gzipProbe_of_not_gzip hng, hbe]
  have hxz : (b.take 6 == xzMagic) = false := by
    rw [beq_eq_false_iff_ne]
    subst hbtl
    intro hc
    have hc2 : (0x52 : Nat) :: tl.take 5 = xzMagic := hc
    simp [xzMagic] at hc2
  simp [firstMatch, firstMatchIn, Extractor.extractors, formatIsExtractable,
    h1, h2, h3, h4, htar, hzip, htp, hgp, hxz, hrt]

/-! The claims. -/

/-- C1: `Extractor.extract` raises the unknown-archive-format error exactly
when detection runs to completion with no detector matching; the check
happens first, so on that error path the filesystem is returned unchanged
and the trace is empty — no lock acquisition and no output mutation took
place. -/
theorem C1_unknown_iff_no_match (ra : Bool) (fs : Fs) (inp out : String) :
    ((Extractor.extract ra fs inp out).res = .error (.unknownArchiveFormat inp) ↔
      Extractor.is_extractable fs inp = .ok false) ∧
    (Extractor.is_extractable fs inp = .ok false →
      Extractor.extract ra fs inp out = ⟨.error (.unknownArchiveFormat inp), fs, []⟩) := by
  have hfalse : Extractor.is_extractable fs inp = .ok false →
      Extractor.extract ra fs inp out = ⟨.error (.unknownArchiveFormat inp), fs, []⟩ := by
    intro h
    simp only [Extractor.extract, h]
  refine ⟨⟨?_, fun h => by rw [hfalse h]⟩, hfalse⟩
  intro h
  cases hdet : Extractor.is_extractable fs inp with
  | error e =>
    have he := is_extractable_error hdet
    have hrun : Extractor.extract ra fs inp out = ⟨.error e, fs, []⟩ := by
      simp only [Extractor.extract, hdet]
    rw [hrun] at h
    simp at h
    rcases he with he | he <;> rw [he] at h <;> simp at h
  | ok bb =>
    cases bb with
    | false => rfl
    | true =>
      exfalso
      by_cases hout : dirOrAbsent (lookupFs fs out) = true
      · obtain ⟨fs2, hm, hdir, hpres, heq⟩ := extract_locked_run ra fs inp out hdet hout
        rw [heq] at h
        rcases extractLoop_error_cases h with h1 | h1 | h1 | h1 <;> simp at h1
      · have heq := extract_not_dir_run ra fs inp out hdet (by simpa using hout)
        rw [heq] at h
        simp at h

/-- C1 witness: a plain text file matches no detector; `extract` raises the
unknown-archive-format error and returns the filesystem unchanged with an
empty trace. -/
theorem C1_witness :
    Extractor.is_extractable fsText "note.txt" = .ok false ∧
    Extractor.extract true fsText "note.txt" "w" =
      ⟨.error (.unknownArchiveFormat "note.txt"), fsText, []⟩ := by
  have h := C1_unknown_iff_no_match true fsText "note.txt" "w"
  exact ⟨by decide, h.2 (by decide)⟩

/-- C4 counterexample: probing an existing but unopenable file makes the
Rar detector — and therefore `Extractor.is_extractable` — raise an
`OSError` instead of answering false, contradicting the claim that every
per-format detector swallows probing failures. -/
theorem C4_counterexample :
    RarExtractor.is_extractable fsC4 "secret" = .error .osError ∧
    Extractor.is_extractable fsC4 "secret" = .error .osError := by decide

/-- C4 amended: the Zip detector alone is total — `zipfile.is_zipfile`
swallows every `OSError`, open failures included.  The Tar, Gzip, Xz and
Rar detectors all propagate an `OSError` raised while opening the probed
path, and `Extractor.is_extractable` propagates it too.  Even on a
readable file the Tar and Gzip probes are not non-raising: a file starting
with the gzip magic but shorter than the complete 10-byte member header
makes `GzipFile.read(1)` raise `EOFError`, which the detector's
`except OSError` does not catch and which also escapes
`tarfile.is_tarfile` through its transparent gzip layer; the combined
detection propagates it.  On readable files that never engage the gzip
layer (bytes not starting with the gzip magic) every detector answers
without raising. -/
theorem C4_detector_totality (fs : Fs) (p : String) :
    (∀ b, lookupFs fs p = some (.file b) →
      ZipExtractor.is_extractable fs p = .ok (zipCheck b) ∧
      XzExtractor.is_extractable fs p = .ok (b.take 6 == xzMagic) ∧
      RarExtractor.is_extractable fs p =
        .ok (RAR_ID.isPrefixOf (b.take 8) || RAR5_ID.isPrefixOf (b.take 8)) ∧
      (gzipMagic.isPrefixOf b = false →
        TarExtractor.is_extractable fs p = .ok (tarCheck b) ∧
        GzipExtractor.is_extractable fs p = .ok b.isEmpty) ∧
      (gzipMagic.isPrefixOf b = true → b.length < 10 →
        TarExtractor.is_extractable fs p = .error .eofError ∧
        GzipExtractor.is_extractable fs p = .error .eofError ∧
        Extractor.is_extractable fs p = .error .eofError)) ∧
    (∃ bo, ZipExtractor.is_extractable fs p = .ok bo) ∧
    ((∀ b, lookupFs fs p ≠ some (.file b)) →
      TarExtractor.is_extractable fs p = .error .osError ∧
      GzipExtractor.is_extractable fs p = .error .osError ∧
      XzExtractor.is_extractable fs p = .error .osError ∧
      RarExtractor.is_extractable fs p = .error .osError ∧
      Extractor.is_extractable fs p = .error .osError) := by
  refine ⟨fun b hb => ?_, ?_, fun hnf => ?_⟩
  · obtain ⟨d1, d2, d3, d4, d5⟩ := detectors_on_file hb
    refine ⟨d3, d4, d5, fun hng => ?_, fun hg hlen => ?_⟩
    · exact ⟨d1.trans (tarProbe_of_not_gzip hng), d2.trans (gzipProbe_of_not_gzip hng)⟩
    · have dt : TarExtractor.is_extractable fs p = .error .eofError :=
        d1.trans (tarProbe_truncated hg hlen)
      refine ⟨dt, d2.trans (gzipProbe_truncated hg hlen), ?_⟩
      simp [Extractor.is_extractable, Extractor.anyExtractable, Extractor.extractors,
        formatIsExtractable, dt]
  · cases ho : openRead fs p with
    | error e => exact ⟨false, by simp [ZipExtractor.is_extractable, ho]⟩
    | ok b => exact ⟨zipCheck b, by simp [ZipExtractor.is_extractable, ho]⟩
  · obtain ⟨d1, d2, d3, d4, d5⟩ := detectors_on_non_file hnf
    refine ⟨d1, d2, d4, d5, ?_⟩
    simp [Extractor.is_extractable, Extractor.anyExtractable, Extractor.extractors,
      formatIsExtractable, d1]

/-- C4 witness: on a readable plain file the probes answer without
raising, while the readable two-byte truncated gzip header makes the Gzip
and Tar detectors — and the combined detection — raise `EOFError`. -/
theorem C4_witness :
    (TarExtractor.is_extractable fsC4w "plain.bin" = .ok (tarCheck plainText) ∧
      GzipExtractor.is_extractable fsC4w "plain.bin" = .ok plainText.isEmpty) ∧
    (TarExtractor.is_extractable fsC4t "trunc.gz" = .error .eofError ∧
      GzipExtractor.is_extractable fsC4t "trunc.gz" = .error .eofError ∧
      Extractor.is_extractable fsC4t "trunc.gz" = .error .eofError) :=
  ⟨((C4_detector_totality fsC4w "plain.bin").1 plainText (by decide)).2.2.2.1 (by decide),
   ((C4_detector_totality fsC4t "trunc.gz").1 [0x1f, 0x8b] (by decide)).2.2.2.2
     (by decide) (by decide)⟩

/-- C5: on the state the coordinator hands over (input a regular file, the
output pre-created as an empty placeholder directory), each single-stream
extractor first removes that directory (`rmdirEv` precedes `writeEv`) and
then writes the decompressed bytes to a regular file at the same path:
after success the output holds exactly the payload of the compressed
input. -/
theorem C5_single_stream (fs : Fs) (inp out : String) (payload b : Bytes)
    (hin : lookupFs fs inp = some (.file b))
    (hout : lookupFs fs out = some (.dir [])) :
    (b = gzipEncodeBytes payload →
      (GzipExtractor.extract fs inp out).res = .ok () ∧
      (GzipExtractor.extract fs inp out).tr = [.rmdirEv out, .writeEv out] ∧
      lookupFs (GzipExtractor.extract fs inp out).fs out = some (.file payload)) ∧
    (b = xzEncodeBytes payload →
      (XzExtractor.extract fs inp out).res = .ok () ∧
      (XzExtractor.extract fs inp out).tr = [.rmdirEv out, .writeEv out] ∧
      lookupFs (XzExtractor.extract fs inp out).fs out = some (.file payload)) := by
  have hio : inp ≠ out := by
    intro hh
    rw [hh] at hin
    rw [hout] at hin
    simp at hin
  have hr : rmdir fs out = .ok (removeFs fs out) := by
    unfold rmdir
    rw [hout]
  have hin1 : lookupFs (removeFs fs out) inp = some (.file b) := by
    rw [lookupFs_removeFs_ne fs (Ne.symm hio)]
    exact hin
  have ho1 : openRead (removeFs fs out) inp = .ok b := openRead_file hin1
  constructor
  · intro hb
    subst hb
    refine ⟨?_, ?_, ?_⟩ <;>
      simp [GzipExtractor.extract, hr, ho1, gzipDecodeBytes_encode, lookupFs_setFs_self]
  · intro hb
    subst hb
    refine ⟨?_, ?_, ?_⟩ <;>
      simp [XzExtractor.extract, hr, ho1, xzDecodeBytes_encode, lookupFs_setFs_self]

/-- C5 witness: concrete gzip and xz fixtures extracted over the
placeholder directory leave a regular file holding the payload. -/
theorem C5_witness :
    ((GzipExtractor.extract fsC5 "p.gz" "odir").res = .ok () ∧
      (GzipExtractor.extract fsC5 "p.gz" "odir").tr = [.rmdirEv "odir", .writeEv "odir"] ∧
      lookupFs (GzipExtractor.extract fsC5 "p.gz" "odir").fs "odir" =
        some (.file [1, 2, 3])) ∧
    ((XzExtractor.extract fsC5x "p.xz" "xdir").res = .ok () ∧
      (XzExtractor.extract fsC5x "p.xz" "xdir").tr = [.rmdirEv "xdir", .writeEv "xdir"] ∧
      lookupFs (XzExtractor.extract fsC5x "p.xz" "xdir").fs "xdir" =
        some (.file [4, 5])) :=
  ⟨(C5_single_stream fsC5 "p.gz" "odir" [1, 2, 3] gzFixture (by decide) (by decide)).1 rfl,
   (C5_single_stream fsC5x "p.xz" "xdir" [4, 5] xzFixture (by decide) (by decide)).2 rfl⟩

/-- C6 counterexample: an empty (zero-byte) file is matched by the Gzip
detector (reading one byte of an empty gzip stream yields end-of-data
without an exception), so `extract` does not raise the
unknown-archive-format error: it succeeds and leaves an empty regular file
at the output path, which is therefore not untouched. -/
theorem C6_counterexample :
    Extractor.is_extractable fsC6 "blob" = .ok true ∧
    (Extractor.extract true fsC6 "blob" "dst").res = .ok () ∧
    lookupFs (Extractor.extract true fsC6 "blob" "dst").fs "dst" = some (.file []) := by
  decide

/-- C6 amended: whenever detection completes with no match — in particular
for a plain text file — `extract` fails with the unknown-archive-format
error and the filesystem is untouched; an empty file, however, is matched
by the Gzip detector, so it does not reach that error path. -/
theorem C6_unmatched_untouched (ra : Bool) (fs : Fs) (inp out : String) :
    (Extractor.is_extractable fs inp = .ok false →
      Extractor.extract ra fs inp out = ⟨.error (.unknownArchiveFormat inp), fs, []⟩) ∧
    (lookupFs fs inp = some (.file plainText) →
      Extractor.is_extractable fs inp = .ok false) ∧
    (lookupFs fs inp = some (.file []) →
      Extractor.is_extractable fs inp = .ok true) := by
  refine ⟨fun h => by simp only [Extractor.extract, h], fun h => ?_, fun h => ?_⟩
  · obtain ⟨h1, h2, h3, h4, h5⟩ := detectors_on_file h
    have c1 : tarProbe plainText = .ok false := by decide
    have c2 : gzipProbe plainText = .ok false := by decide
    have c3 : zipCheck plainText = false := by decide
    have c4 : (plainText.take 6 == xzMagic) = false := by decide
    have c5 : (RAR_ID.isPrefixOf (plainText.take 8) ||
        RAR5_ID.isPrefixOf (plainText.take 8)) = false := by decide
    simp [Extractor.is_extractable, Extractor.anyExtractable, Extractor.extractors,
      formatIsExtractable, h1, h2, h3, h4, h5, c1, c2, c3, c4, c5]
  · obtain ⟨h1, h2, h3, h4, h5⟩ := detectors_on_file h
    have c1 : tarProbe [] = .ok false := by decide
    have c2 : gzipProbe [] = .ok true := by decide
    simp [Extractor.is_extractable, Extractor.anyExtractable, Extractor.extractors,
      formatIsExtractable, h1, h2, c1, c2]

/-- C6 witness: the amended claim at a concrete filesystem holding a plain
text file and an empty file. -/
theorem C6_witness :
    Extractor.is_extractable fsC6w "memo.txt" = .ok false ∧
    Extractor.extract true fsC6w "memo.txt" "v" =
      ⟨.error (.unknownArchiveFormat "memo.txt"), fsC6w, []⟩ ∧
    Extractor.is_extractable fsC6w "z" = .ok true := by
  have h := C6_unmatched_untouched true fsC6w "memo.txt" "v"
  have h2 := C6_unmatched_untouched true fsC6w "z" "v"
  have hm : Extractor.is_extractable fsC6w "memo.txt" = .ok false := h.2.1 (by decide)
  exact ⟨hm, h.1 hm, h2.2.2 (by decide)⟩

theorem getLast?_append_single {α : Type} (l : List α) (x : α) :
    (l ++ [x]).getLast? = some x :=
  List.getLast?_concat l

/-- C2 counterexample: with a regular file at the output path `extract`
acquires the lock but does not discard the prior contents:
`shutil.rmtree(ignore_errors=True)` silently leaves the regular file in
place, `os.makedirs(exist_ok=True)` then raises `FileExistsError`, and the
old file survives the call. -/
theorem C2_counterexample :
    Extractor.is_extractable fsC2 "in.gz" = .ok true ∧
    (Extractor.extract true fsC2 "in.gz" "out").tr.head? =
      some (.acquire "in.gz.lock") ∧
    (Extractor.extract true fsC2 "in.gz" "out").res = .error .fileExistsError ∧
    lookupFs (Extractor.extract true fsC2 "in.gz" "out").fs "out" = some (.file [7]) := by
  decide

/-- C2 amended: provided a directory or nothing sits at the output path,
once the lock is acquired the output is unconditionally discarded and
recreated as a fresh empty directory (the locked phase starts from an
intermediate state whose output is an empty directory), regardless of
whether the subsequent extraction succeeds; hence the outcome and the final
output contents depend only on the input file, never on prior output
contents.  A non-directory at the output path instead survives and fails
the recreation step. -/
theorem C2_clean_slate (ra : Bool) (fs : Fs) (inp out : String)
    (h : Extractor.is_extractable fs inp = .ok true)
    (hout : dirOrAbsent (lookupFs fs out) = true) :
    ((Extractor.extract ra fs inp out).tr.take 3 =
      [.acquire (inp ++ ".lock"), .rmtreeEv out, .makedirsEv out]) ∧
    (∃ fs2, makedirs_exist_ok (rmtree_ignore_errors fs out) out = .ok fs2 ∧
      lookupFs fs2 out = some (.dir []) ∧
      Extractor.extract ra fs inp out =
        ⟨(Extractor.extractLoop ra fs2 inp out Extractor.extractors).res,
         (Extractor.extractLoop ra fs2 inp out Extractor.extractors).fs,
         .acquire (inp ++ ".lock") :: .rmtreeEv out :: .makedirsEv out ::
           (Extractor.extractLoop ra fs2 inp out Extractor.extractors).tr ++
             [.release (inp ++ ".lock")]⟩) ∧
    (∀ fs', lookupFs fs' inp = lookupFs fs inp →
      dirOrAbsent (lookupFs fs' out) = true →
      (Extractor.extract ra fs' inp out).res = (Extractor.extract ra fs inp out).res ∧
      lookupFs (Extractor.extract ra fs' inp out).fs out =
        lookupFs (Extractor.extract ra fs inp out).fs out) := by
  obtain ⟨fs2, hm, hdir, hpres, heq⟩ := extract_locked_run ra fs inp out h hout
  refine ⟨by rw [heq]; rfl, ⟨fs2, hm, hdir, heq⟩, ?_⟩
  intro fs' hin' hout'
  have h' : Extractor.is_extractable fs' inp = .ok true := by
    rw [is_extractable_congr hin']
    exact h
  obtain ⟨fs2', hm', hdir', hpres', heq'⟩ := extract_locked_run ra fs' inp out h' hout'
  have hne : inp ≠ out := input_ne_output h hout
  have hin2 : lookupFs fs2' inp = lookupFs fs2 inp := by
    rw [hpres' inp hne, hpres inp hne, hin']
  have hout2 : lookupFs fs2' out = lookupFs fs2 out := by rw [hdir', hdir]
  have hcong := extractLoop_congr ra Extractor.extractors hin2 hout2
  rw [heq, heq']
  exact ⟨hcong.1, hcong.2⟩

/-- C2 witness: a gzip input extracted to an absent output path enters the
locked phase after clearing and recreating the output. -/
theorem C2_witness :
    (Extractor.extract true fsC2w "w.gz" "out2").tr.take 3 =
      [.acquire "w.gz.lock", .rmtreeEv "out2", .makedirsEv "out2"] :=
  (C2_clean_slate true fsC2w "w.gz" "out2" (by decide) (by decide)).1

/-- C3 counterexample: a detector matches the input (the xz fixture, first
match Xz) yet `extract` invokes no extractor at all, because the recreation
of the output directory fails on the regular file sitting at the output
path — contradicting the claim that exactly one extractor is invoked. -/
theorem C3_counterexample :
    Extractor.is_extractable fsC3 "a.xz" = .ok true ∧
    firstMatch fsC3 "a.xz" = .ok (some .xz) ∧
    invokedFormats (Extractor.extract true fsC3 "a.xz" "dest").tr = [] := by
  decide

/-- C3 amended: the registered order is exactly Tar, Gzip, Zip, Xz, Rar;
`Extractor.is_extractable` answers true exactly when the ordered,
short-circuiting scan finds a first match; and `Extractor.extract` invokes
at most one extractor — exactly the one paired with the first matching
detector whenever the recreation of the output directory succeeds, and
none at all when a non-directory at the output path makes recreation
fail. -/
theorem C3_priority_order :
    Extractor.extractors = [.tar, .gzip, .zip, .xz, .rar] ∧
    (∀ fs p, Extractor.is_extractable fs p = (firstMatch fs p).map Option.isSome) ∧
    (∀ ra fs inp out f, firstMatch fs inp = .ok (some f) →
      dirOrAbsent (lookupFs fs out) = true →
      invokedFormats (Extractor.extract ra fs inp out).tr = [f]) ∧
    (∀ ra fs inp out f, firstMatch fs inp = .ok (some f) →
      dirOrAbsent (lookupFs fs out) = false →
      invokedFormats (Extractor.extract ra fs inp out).tr = []) := by
  refine ⟨rfl, is_extractable_eq_firstMatch, fun ra fs inp out f hf hout => ?_,
    fun ra fs inp out f hf hout => ?_⟩
  · have h : Extractor.is_extractable fs inp = .ok true :=
      (is_extractable_true_iff fs inp).2 ⟨f, hf⟩
    obtain ⟨fs2, hm, hdir, hpres, heq⟩ := extract_locked_run ra fs inp out h hout
    have hne : inp ≠ out := input_ne_output h hout
    have hin2 : lookupFs fs2 inp = lookupFs fs inp := hpres inp hne
    have hloop :=
      (extractLoop_of_firstMatchIn ra fs2 fs inp out Extractor.extractors hin2).2.1 f hf
    rw [heq]
    show invokedFormats (.acquire (inp ++ ".lock") :: .rmtreeEv out :: .makedirsEv out ::
      (Extractor.extractLoop ra fs2 inp out Extractor.extractors).tr ++
        [.release (inp ++ ".lock")]) = [f]
    rw [hloop]
    have hi := invokedFormats_formatExtract f ra fs2 inp out
    simp only [invokedFormats, List.filterMap_cons, List.filterMap_append] at hi ⊢
    simp [hi]
  · have h : Extractor.is_extractable fs inp = .ok true :=
      (is_extractable_true_iff fs inp).2 ⟨f, hf⟩
    rw [extract_not_dir_run ra fs inp out h hout]
    rfl

/-- C3 witness: a gzip input against a fresh output invokes exactly the
Gzip extractor. -/
theorem C3_witness :
    invokedFormats (Extractor.extract true fsC3w "c.gz" "d2").tr = [.gzip] :=
  C3_priority_order.2.2.1 true fsC3w "c.gz" "d2" .gzip (by decide) (by decide)

/-- C7: whenever detection succeeds, the first recorded event is the
acquisition of the lock at exactly `input_path ++ ".lock"` (so the lock is
taken before any output mutation, and the same input always yields the same
lock), the last recorded event is the release of that same lock on every
exit path — succeeding or failing — and any error carried out of the call
is a typed extraction-phase failure, never the unknown-format error. -/
theorem C7_lock_protocol (ra : Bool) (fs : Fs) (inp out : String)
    (h : Extractor.is_extractable fs inp = .ok true) :
    (Extractor.extract ra fs inp out).tr.head? = some (.acquire (inp ++ ".lock")) ∧
    (Extractor.extract ra fs inp out).tr.getLast? = some (.release (inp ++ ".lock")) ∧
    (∀ e, (Extractor.extract ra fs inp out).res = .error e →
      e = .osError ∨ e = .fileExistsError ∨ e = .corruptStream ∨ e = .missingRarfile) := by
  by_cases hout : dirOrAbsent (lookupFs fs out) = true
  · obtain ⟨fs2, hm, hdir, hpres, heq⟩ := extract_locked_run ra fs inp out h hout
    rw [heq]
    refine ⟨rfl, ?_, fun e he => ?_⟩
    · show (Ev.acquire (inp ++ ".lock") :: Ev.rmtreeEv out :: Ev.makedirsEv out ::
        (Extractor.extractLoop ra fs2 inp out Extractor.extractors).tr ++
          [Ev.release (inp ++ ".lock")]).getLast? = some (.release (inp ++ ".lock"))
      exact getLast?_append_single _ _
    · obtain ⟨f, hf⟩ := (is_extractable_true_iff fs inp).1 h
      have hin2 : lookupFs fs2 inp = lookupFs fs inp := hpres inp (input_ne_output h hout)
      have hloop :=
        (extractLoop_of_firstMatchIn ra fs2 fs inp out Extractor.extractors hin2).2.1 f hf
      have he2 : (formatExtract f ra fs2 inp out).res = .error e := by
        rw [← hloop]
        exact he
      rcases formatExtract_error_cases he2 with h1 | h1 | h1
      · exact Or.inl h1
      · exact Or.inr (Or.inr (Or.inl h1))
      · exact Or.inr (Or.inr (Or.inr h1))
  · rw [extract_not_dir_run ra fs inp out h (by simpa using hout)]
    refine ⟨rfl, rfl, fun e he => ?_⟩
    simp at he
    subst he
    simp

/-- C7 witness: a rar input with the capability flag off — the extractor
raises, yet the lock at `"r.rar" + ".lock"` is acquired first and released
last, and the missing-dependency failure propagates. -/
theorem C7_witness :
    (Extractor.extract false fsC7 "r.rar" "rw").tr.head? =
      some (.acquire "r.rar.lock") ∧
    (Extractor.extract false fsC7 "r.rar" "rw").tr.getLast? =
      some (.release "r.rar.lock") ∧
    (Extractor.extract false fsC7 "r.rar" "rw").res = .error .missingRarfile := by
  have h := C7_lock_protocol false fsC7 "r.rar" "rw" (by decide)
  exact ⟨h.1, h.2.1, by decide⟩

/-- C8 counterexample: with a regular file at the output path, extracting a
valid rar input with the capability flag disabled fails with
`FileExistsError` from the recreation step — not with the
missing-dependency error the claim promises. -/
theorem C8_counterexample :
    Extractor.is_extractable fsC8 "arch.rar" = .ok true ∧
    (Extractor.extract false fsC8 "arch.rar" "tgt").res = .error .fileExistsError := by
  decide

/-- C8 amended: for a valid rar input (rar signature, not matching the
earlier tar and zip structural checks), provided a directory or nothing
sits at the output path, extraction with the capability flag disabled fails
with the missing-dependency error — which is distinct from the
corrupt-stream error — and the Rar extractor is the only one invoked, with
no fallback attempted. -/
theorem C8_missing_dependency (fs : Fs) (inp out : String) (b : Bytes)
    (hin : lookupFs fs inp = some (.file b))
    (hrar : RAR_ID.isPrefixOf b = true ∨ RAR5_ID.isPrefixOf b = true)
    (htar : tarCheck b = false) (hzip : zipCheck b = false)
    (hout : dirOrAbsent (lookupFs fs out) = true) :
    (Extractor.extract false fs inp out).res = .error .missingRarfile ∧
    (Extractor.extract false fs inp out).res ≠ .error .corruptStream ∧
    invokedFormats (Extractor.extract false fs inp out).tr = [.rar] := by
  have hf := rar_first_match hin hrar htar hzip
  have h : Extractor.is_extractable fs inp = .ok true :=
    (is_extractable_true_iff fs inp).2 ⟨_, hf⟩
  obtain ⟨fs2, hm, hdir, hpres, heq⟩ := extract_locked_run false fs inp out h hout
  have hne : inp ≠ out := input_ne_output h hout
  have hin2 : lookupFs fs2 inp = lookupFs fs inp := hpres inp hne
  have hloop :=
    (extractLoop_of_firstMatchIn false fs2 fs inp out Extractor.extractors hin2).2.1 _ hf
  rw [heq, hloop]
  exact ⟨rfl, fun hc => absurd (Except.error.inj hc) (by decide), rfl⟩

/-- C8 witness: the rar fixture against a fresh output path with the flag
disabled. -/
theorem C8_witness :
    (Extractor.extract false fsC8w "k.rar" "w8").res = .error .missingRarfile ∧
    (Extractor.extract false fsC8w "k.rar" "w8").res ≠ .error .corruptStream ∧
    invokedFormats (Extractor.extract false fsC8w "k.rar" "w8").tr = [.rar] :=
  C8_missing_dependency fsC8w "k.rar" "w8" rarFixture (by decide) (Or.inl (by decide))
    (by decide) (by decide) (by decide)

/-- C9 counterexample: a gzip input extracts successfully, leaving a
regular file at the output path, and the second call in sequence then fails
with `FileExistsError` instead of succeeding. -/
theorem C9_counterexample :
    (Extractor.extract true fsC9 "d.gz" "odir").res = .ok () ∧
    (Extractor.extract true (Extractor.extract true fsC9 "d.gz" "odir").fs
      "d.gz" "odir").res = .error .fileExistsError := by
  decide

/-- C9 amended: after a successful extraction, a second identical call
succeeds with byte-identical output contents when the first call left a
directory at the output path (the multi-member formats); when it left a
regular file there (the single-stream formats), the second call instead
fails with `FileExistsError` from the recreation step, leaving that file
unchanged. -/
theorem C9_idempotence (ra : Bool) (fs : Fs) (inp out : String)
    (h1 : (Extractor.extract ra fs inp out).res = .ok ()) :
    (∀ es, lookupFs (Extractor.extract ra fs inp out).fs out = some (.dir es) →
      (Extractor.extract ra (Extractor.extract ra fs inp out).fs inp out).res = .ok () ∧
      lookupFs (Extractor.extract ra (Extractor.extract ra fs inp out).fs inp out).fs out =
        lookupFs (Extractor.extract ra fs inp out).fs out) ∧
    (∀ bs, lookupFs (Extractor.extract ra fs inp out).fs out = some (.file bs) →
      (Extractor.extract ra (Extractor.extract ra fs inp out).fs inp out).res =
        .error .fileExistsError ∧
      lookupFs (Extractor.extract ra (Extractor.extract ra fs inp out).fs inp out).fs out =
        some (.file bs)) := by
  cases hdet : Extractor.is_extractable fs inp with
  | error e =>
    rw [show Extractor.extract ra fs inp out = ⟨.error e, fs, []⟩ from by
      simp only [Extractor.extract, hdet]] at h1
    simp at h1
  | ok bb =>
    cases bb with
    | false =>
      rw [show Extractor.extract ra fs inp out =
          ⟨.error (.unknownArchiveFormat inp), fs, []⟩ from by
        simp only [Extractor.extract, hdet]] at h1
      simp at h1
    | true =>
      by_cases hout : dirOrAbsent (lookupFs fs out) = true
      · obtain ⟨fs2, hm, hdir, hpres, heq⟩ := extract_locked_run ra fs inp out hdet hout
        have hne : inp ≠ out := input_ne_output hdet hout
        have hinpres : lookupFs (Extractor.extract ra fs inp out).fs inp =
            lookupFs fs inp := by
          rw [heq]
          exact (extractLoop_preserves ra fs2 inp out Extractor.extractors hne).trans
            (hpres inp hne)
        have hdet2 : Extractor.is_extractable (Extractor.extract ra fs inp out).fs inp =
            .ok true := by
          rw [is_extractable_congr hinpres]
          exact hdet
        have hres1 : (Extractor.extractLoop ra fs2 inp out Extractor.extractors).res =
            .ok () := by
          rw [heq] at h1
          exact h1
        constructor
        · intro es hes
          have hout2 : dirOrAbsent
              (lookupFs (Extractor.extract ra fs inp out).fs out) = true := by
            rw [hes]
            rfl
          obtain ⟨fs2', hm', hdir', hpres', heq'⟩ :=
            extract_locked_run ra (Extractor.extract ra fs inp out).fs inp out hdet2 hout2
          have hin2 : lookupFs fs2' inp = lookupFs fs2 inp := by
            rw [hpres' inp hne, hinpres, hpres inp hne]
          have hout2' : lookupFs fs2' out = lookupFs fs2 out := by rw [hdir', hdir]
          have hcong := extractLoop_congr ra Extractor.extractors hin2 hout2'
          refine ⟨?_, ?_⟩
          · rw [heq']
            exact hcong.1.trans hres1
          · rw [heq']
            have hlk : lookupFs (Extractor.extract ra fs inp out).fs out =
                lookupFs (Extractor.extractLoop ra fs2 inp out Extractor.extractors).fs
                  out := by
              rw [heq]
            rw [hlk]
            exact hcong.2
        · intro bs hbs
          have hout2 : dirOrAbsent
              (lookupFs (Extractor.extract ra fs inp out).fs out) = false := by
            rw [hbs]
            rfl
          have heq2 :=
            extract_not_dir_run ra (Extractor.extract ra fs inp out).fs inp out hdet2 hout2
          rw [heq2]
          exact ⟨rfl, hbs⟩
      · rw [extract_not_dir_run ra fs inp out hdet (by simpa using hout)] at h1
        simp at h1

/-- C9 witness: a tar input extracted twice to the same output — the second
call succeeds and the output contents are identical. -/
theorem C9_witness :
    (Extractor.extract true (Extractor.extract true fsC9w "t.tar" "ext").fs
      "t.tar" "ext").res = .ok () ∧
    lookupFs (Extractor.extract true (Extractor.extract true fsC9w "t.tar" "ext").fs
      "t.tar" "ext").fs "ext" =
      lookupFs (Extractor.extract true fsC9w "t.tar" "ext").fs "ext" :=
  (C9_idempotence true fsC9w "t.tar" "ext" (by decide)).1 (tarEntries tarFixture) (by decide)

/-- C10 counterexample: for a valid RAR5 input with the capability flag
disabled and a regular file at the output path, `extract` fails with
`FileExistsError` and the output is left unchanged — not as a freshly
created empty directory. -/
theorem C10_counterexample :
    RarExtractor.is_extractable fsC10 "b.rar" = .ok true ∧
    (Extractor.extract false fsC10 "b.rar" "eout").res = .error .fileExistsError ∧
    lookupFs (Extractor.extract false fsC10 "b.rar" "eout").fs "eout" =
      some (.file [2]) := by
  decide

/-- C10 amended: detection never reads the capability flag — for a valid
rar input the Rar detector and the combined detection answer true with the
flag disabled; provided a directory or nothing sits at the output path,
`extract` then clears and recreates the output and only afterwards raises
the missing-dependency error, leaving the output as a freshly created empty
directory rather than unchanged.  A pre-existing non-directory output
instead fails the recreation step with the output unchanged. -/
theorem C10_detection_flag_independent (fs : Fs) (inp out : String) (b : Bytes)
    (hin : lookupFs fs inp = some (.file b))
    (hrar : RAR_ID.isPrefixOf b = true ∨ RAR5_ID.isPrefixOf b = true)
    (htar : tarCheck b = false) (hzip : zipCheck b = false)
    (hout : dirOrAbsent (lookupFs fs out) = true) :
    RarExtractor.is_extractable fs inp = .ok true ∧
    Extractor.is_extractable fs inp = .ok true ∧
    (Extractor.extract false fs inp out).res = .error .missingRarfile ∧
    lookupFs (Extractor.extract false fs inp out).fs out = some (.dir []) := by
  have hf := rar_first_match hin hrar htar hzip
  have h : Extractor.is_extractable fs inp = .ok true :=
    (is_extractable_true_iff fs inp).2 ⟨_, hf⟩
  obtain ⟨fs2, hm, hdir, hpres, heq⟩ := extract_locked_run false fs inp out h hout
  have hne : inp ≠ out := input_ne_output h hout
  have hin2 : lookupFs fs2 inp = lookupFs fs inp := hpres inp hne
  have hloop :=
    (extractLoop_of_firstMatchIn false fs2 fs inp out Extractor.extractors hin2).2.1 _ hf
  refine ⟨rar_detector_true hin hrar, h, ?_, ?_⟩
  · rw [heq, hloop]
    rfl
  · rw [heq, hloop]
    exact hdir

/-- C10 witness: the RAR5 fixture against a fresh output with the flag
disabled: detected, and the error path leaves a fresh empty directory. -/
theorem C10_witness :
    RarExtractor.is_extractable fsC10w "m.rar" = .ok true ∧
    Extractor.is_extractable fsC10w "m.rar" = .ok true ∧
    (Extractor.extract false fsC10w "m.rar" "w10").res = .error .missingRarfile ∧
    lookupFs (Extractor.extract false fsC10w "m.rar" "w10").fs "w10" =
      some (.dir []) :=
  C10_detection_flag_independent fsC10w "m.rar" "w10" rar5Fixture (by decide)
    (Or.inr (by decide)) (by decide) (by decide) (by decide)

end DatasetsExtract
